import Mathlib

/-!
Shallow embedding of the rplc runtime kernel (task scheduler, lifecycle
state machine, periodic-loop driver, jitter statistics, control API) and
proofs of the specification claims about it.

The definitions mirror the Rust sources:
  * `src/tasks.rs`    — `Status`, `ControllerStats`, `ThreadStats`,
                        `JitterStats`, lifecycle transitions, phase gates;
  * `src/interval.rs` — `Loop::tick`;
  * `src/api.rs`      — request handling of the control socket;
  * `src/lib.rs`      — the `run()` main-thread sequence.

Machine integers are embedded as `Nat`/`Int` with explicit bounds where
overflow matters (u16 saturation, u32 overflow checks, i16 wire values).
-/

namespace Rplc

/-! ## Status (src/tasks.rs, `enum Status`) -/

/-- `enum Status` from src/tasks.rs (repr(i16), explicit discriminants). -/
inductive Status where
  | Inactive     -- = 0, plc is launched
  | Starting     -- = 1, plc is starting
  | Syncing      -- = 2, inputs can run
  | Preparing    -- = 3, programs can run
  | Active       -- = 100, outputs can run
  | Stopping     -- = -1, plc started shutdown, inputs and programs must quit
  | StopSyncing  -- = -2, final data sync
  | Stopped      -- = -100, outputs completed, PLC is stopped
  | Unknown      -- = -200
  deriving DecidableEq, Repr

/-- The i16 discriminant of each `Status` variant. The Rust `derive(Ord)`
on a repr(i16) enum with explicit discriminants compares exactly these
values, so every `status() >= Status::X` in the source is embedded as a
comparison of codes. -/
def Status.code : Status → Int
  | .Inactive => 0
  | .Starting => 1
  | .Syncing => 2
  | .Preparing => 3
  | .Active => 100
  | .Stopping => -1
  | .StopSyncing => -2
  | .Stopped => -100
  | .Unknown => -200

/-- `impl From<i16> for Status` from src/tasks.rs: an if-guard chain
comparing the input against each variant's discriminant, with a
catch-all to `Unknown`. -/
def Status.from_i16 (s : Int) : Status :=
  if s = Status.code .Inactive then .Inactive
  else if s = Status.code .Starting then .Starting
  else if s = Status.code .Syncing then .Syncing
  else if s = Status.code .Preparing then .Preparing
  else if s = Status.code .Active then .Active
  else if s = Status.code .Stopping then .Stopping
  else if s = Status.code .StopSyncing then .StopSyncing
  else if s = Status.code .Stopped then .Stopped
  else .Unknown

/-! ## Phase gates (src/tasks.rs, `can_run_inputs` / `can_run_programs` /
`can_run_outputs`) -/

/-- `fn can_run_inputs() -> bool { status() >= Status::Syncing }`. -/
def can_run_inputs (s : Status) : Bool :=
  Status.code .Syncing ≤ s.code

/-- `fn can_run_programs() -> bool { status() >= Status::Preparing }`. -/
def can_run_programs (s : Status) : Bool :=
  Status.code .Preparing ≤ s.code

/-- `fn can_run_outputs() -> bool`:
`status >= Status::Preparing || status <= Status::Stopping`. -/
def can_run_outputs (s : Status) : Bool :=
  Status.code .Preparing ≤ s.code || s.code ≤ Status.code .Stopping

/-- `fn need_stop(kind)` from src/tasks.rs: Input/Program stop at
`status <= Stopping`, Output at `status <= StopSyncing`, Service never. -/
def need_stop_input_program (s : Status) : Bool :=
  s.code ≤ Status.code .Stopping

def need_stop_output (s : Status) : Bool :=
  s.code ≤ Status.code .StopSyncing

/-- `fn output_last_sync() -> bool { status() == Status::StopSyncing }`. -/
def output_last_sync (s : Status) : Bool :=
  s = .StopSyncing

/-- C9: the i16-to-Status conversion maps 0, 1, 2, 3, 100, -1, -2, -100 to
Inactive, Starting, Syncing, Preparing, Active, Stopping, StopSyncing,
Stopped respectively, every other i16 value to Unknown, and converting any
Status variant to i16 and back yields the same variant. -/
theorem status_i16_conversion_spec :
    (Status.from_i16 0 = .Inactive ∧ Status.from_i16 1 = .Starting ∧
     Status.from_i16 2 = .Syncing ∧ Status.from_i16 3 = .Preparing ∧
     Status.from_i16 100 = .Active ∧ Status.from_i16 (-1) = .Stopping ∧
     Status.from_i16 (-2) = .StopSyncing ∧ Status.from_i16 (-100) = .Stopped) ∧
    (∀ s : Status, Status.from_i16 s.code = s) ∧
    (∀ x : Int, x ≠ 0 → x ≠ 1 → x ≠ 2 → x ≠ 3 → x ≠ 100 →
      x ≠ -1 → x ≠ -2 → x ≠ -100 → Status.from_i16 x = .Unknown) := by
  refine ⟨by decide, fun s => by cases s <;> decide, fun x h0 h1 h2 h3 h100 hm1 hm2 hm100 => ?_⟩
  simp only [Status.from_i16, Status.code]
  simp [h0, h1, h2, h3, h100, hm1, hm2, hm100]

/-- Witness for C9: the out-of-range value 7 converts to Unknown. -/
theorem status_i16_conversion_spec_witness : Status.from_i16 7 = .Unknown :=
  status_i16_conversion_spec.2.2 7 (by decide) (by decide) (by decide) (by decide)
    (by decide) (by decide) (by decide) (by decide)

/-- C5: the phase-gate predicates satisfy exactly: Input may run iff
status ≥ Syncing (numeric i16 value ≥ 2), Program may run iff status ≥
Preparing (≥ 3), Output may run iff status ≥ Preparing or status ≤
Stopping (≥ 3 or ≤ -1). -/
theorem phase_gates_spec (s : Status) :
    (can_run_inputs s = true ↔ 2 ≤ s.code) ∧
    (can_run_programs s = true ↔ 3 ≤ s.code) ∧
    (can_run_outputs s = true ↔ (3 ≤ s.code ∨ s.code ≤ -1)) := by
  cases s <;> decide

/-! ## Jitter statistics (src/tasks.rs, `ThreadStats` / `JitterStats`) -/

/-- `u32::MAX`. -/
def u32MAX : Nat := 4294967295

/-- `u16::MAX`. -/
def u16MAX : Nat := 65535

/-- `trait ConvX { fn as_u16_max(&self) -> u16 }` from src/tasks.rs:
saturate a wider unsigned value to u16. -/
def as_u16_max (n : Nat) : Nat :=
  if n > u16MAX then u16MAX else n

/-- `struct JitterStats` from src/tasks.rs: min/max/last are u16,
total is u32. -/
structure JitterStats where
  min : Nat
  max : Nat
  last : Nat
  total : Nat
  deriving DecidableEq, Repr

namespace JitterStats

/-- `JitterStats::new(jitter)`. -/
def new (jitter : Nat) : JitterStats :=
  { min := jitter, max := jitter, last := jitter, total := jitter }

end JitterStats

/-- `struct ThreadStats` from src/tasks.rs: a u32 iteration counter and
an optional jitter record. -/
structure ThreadStats where
  iters : Nat
  jitter : Option JitterStats
  deriving DecidableEq, Repr

namespace ThreadStats

/-- `ThreadStats::default()`. -/
def default : ThreadStats := { iters := 0, jitter := none }

/-- `ThreadStats::report_jitter(&mut self, jitter: u16)` from src/tasks.rs:
increment `iters` (resetting to 1 at u32::MAX), then fold the sample into
the jitter record, resetting `iters`/`total` to the single-sample state
when `total` would overflow u32. -/
def report_jitter (ts : ThreadStats) (jitter : Nat) : ThreadStats :=
  let iters1 := if ts.iters = u32MAX then 1 else ts.iters + 1
  let was_reset := ts.iters = u32MAX
  match ts.jitter with
  | some j =>
      let min' := if j.min > jitter then jitter else j.min
      let max' := if j.max < jitter then jitter else j.max
      if was_reset then
        { iters := iters1,
          jitter := some { min := min', max := max', last := jitter, total := jitter } }
      else if j.total > u32MAX - jitter then
        { iters := 1,
          jitter := some { min := min', max := max', last := jitter, total := jitter } }
      else
        { iters := iters1,
          jitter := some { min := min', max := max', last := jitter, total := j.total + jitter } }
  | none =>
      { iters := iters1, jitter := some (JitterStats.new jitter) }

/-- `ThreadStats::reset(&mut self)`: clear the counter and the record. -/
def reset (_ts : ThreadStats) : ThreadStats :=
  { iters := 0, jitter := none }

end ThreadStats

/-- `struct ThreadInfo` from src/tasks.rs. -/
structure ThreadInfo where
  iters : Nat
  jitter_min : Nat
  jitter_max : Nat
  jitter_last : Nat
  jitter_avg : Nat
  deriving DecidableEq, Repr

/-- `ThreadStats::info(&self)` from src/tasks.rs: snapshot with the
computed average `total / iters` saturated to u16 (u32 division in Rust,
which panics on a zero divisor; `Nat` division is the same function on
every state where `iters ≥ 1`, which claim C10 establishes). -/
def ThreadStats.info (ts : ThreadStats) : Option ThreadInfo :=
  ts.jitter.map fun j =>
    { iters := ts.iters, jitter_min := j.min, jitter_max := j.max,
      jitter_last := j.last, jitter_avg := as_u16_max (j.total / ts.iters) }

/-- The states of a per-thread statistics record reachable from the
default record by `report_jitter` (u16 samples) and `reset`. -/
inductive TSReach : ThreadStats → Prop where
  | init : TSReach ThreadStats.default
  | report {ts : ThreadStats} (j : Nat) (hj : j ≤ u16MAX) :
      TSReach ts → TSReach (ts.report_jitter j)
  | reset {ts : ThreadStats} : TSReach ts → TSReach ts.reset

/-- The inductive invariant of reachable statistics records: a present
jitter record has a positive iteration count, ordered min/last/max, and a
running total bounded by `iters * max`. -/
def TSInv (ts : ThreadStats) : Prop :=
  ∀ j, ts.jitter = some j →
    1 ≤ ts.iters ∧ j.min ≤ j.last ∧ j.last ≤ j.max ∧ j.total ≤ ts.iters * j.max

theorem report_jitter_eq_none (ts : ThreadStats) (jit : Nat)
    (h : ts.jitter = none) :
    ts.report_jitter jit =
      { iters := if ts.iters = u32MAX then 1 else ts.iters + 1,
        jitter := some (JitterStats.new jit) } := by
  simp [ThreadStats.report_jitter, h]

theorem report_jitter_eq_iters_overflow (ts : ThreadStats) (jit : Nat)
    (js : JitterStats) (h : ts.jitter = some js) (hmax : ts.iters = u32MAX) :
    ts.report_jitter jit =
      { iters := 1,
        jitter := some { min := if js.min > jit then jit else js.min,
                         max := if js.max < jit then jit else js.max,
                         last := jit, total := jit } } := by
  simp [ThreadStats.report_jitter, h, hmax]

theorem report_jitter_eq_total_overflow (ts : ThreadStats) (jit : Nat)
    (js : JitterStats) (h : ts.jitter = some js) (hmax : ts.iters ≠ u32MAX)
    (hovf : js.total > u32MAX - jit) :
    ts.report_jitter jit =
      { iters := 1,
        jitter := some { min := if js.min > jit then jit else js.min,
                         max := if js.max < jit then jit else js.max,
                         last := jit, total := jit } } := by
  simp [ThreadStats.report_jitter, h, hmax, hovf]

theorem report_jitter_eq_normal (ts : ThreadStats) (jit : Nat)
    (js : JitterStats) (h : ts.jitter = some js) (hmax : ts.iters ≠ u32MAX)
    (hovf : ¬ js.total > u32MAX - jit) :
    ts.report_jitter jit =
      { iters := ts.iters + 1,
        jitter := some { min := if js.min > jit then jit else js.min,
                         max := if js.max < jit then jit else js.max,
                         last := jit, total := js.total + jit } } := by
  simp [ThreadStats.report_jitter, h, hmax, hovf]

theorem tsinv_default : TSInv ThreadStats.default := by
  intro j h
  simp [ThreadStats.default] at h

theorem tsinv_reset (ts : ThreadStats) : TSInv ts.reset := by
  intro j h
  simp [ThreadStats.reset] at h

theorem tsinv_report (ts : ThreadStats) (hts : TSInv ts) (jit : Nat) :
    TSInv (ts.report_jitter jit) := by
  intro j h
  rcases hjit : ts.jitter with _ | js
  · rw [report_jitter_eq_none ts jit hjit] at h ⊢
    dsimp only at h ⊢
    simp only [Option.some.injEq] at h
    subst h
    refine ⟨by split <;> omega, by simp [JitterStats.new], by simp [JitterStats.new], ?_⟩
    simp only [JitterStats.new]
    split
    · omega
    · exact Nat.le_mul_of_pos_left jit (by omega)
  · obtain ⟨h1, hmin, hlast, htot⟩ := hts js hjit
    by_cases hreset : ts.iters = u32MAX
    · rw [report_jitter_eq_iters_overflow ts jit js hjit hreset] at h ⊢
      dsimp only at h ⊢
      simp only [Option.some.injEq] at h
      subst h
      refine ⟨by omega, ?_, ?_, ?_⟩ <;> dsimp only <;> split <;> omega
    · by_cases hovf : js.total > u32MAX - jit
      · rw [report_jitter_eq_total_overflow ts jit js hjit hreset hovf] at h ⊢
        dsimp only at h ⊢
        simp only [Option.some.injEq] at h
        subst h
        refine ⟨by omega, ?_, ?_, ?_⟩ <;> dsimp only <;> split <;> omega
      · rw [report_jitter_eq_normal ts jit js hjit hreset hovf] at h ⊢
        dsimp only at h ⊢
        simp only [Option.some.injEq] at h
        subst h
        refine ⟨by omega, ?_, ?_, ?_⟩
        · dsimp only; split <;> omega
        · dsimp only; split <;> omega
        · dsimp only
          have hmaxle : js.max ≤ if js.max < jit then jit else js.max := by
            split <;> omega
          calc js.total + jit ≤ ts.iters * js.max + jit := by omega
            _ ≤ ts.iters * (if js.max < jit then jit else js.max) + jit := by
                have := Nat.mul_le_mul_left ts.iters hmaxle
                omega
            _ ≤ (ts.iters + 1) * (if js.max < jit then jit else js.max) := by
                rw [Nat.succ_mul]
                have : jit ≤ if js.max < jit then jit else js.max := by
                  split <;> omega
                omega

theorem tsreach_inv {ts : ThreadStats} (h : TSReach ts) : TSInv ts := by
  induction h with
  | init => exact tsinv_default
  | report j hj _ ih => exact tsinv_report _ ih j
  | reset _ _ => exact tsinv_reset _

/-- C6: for every statistics record produced by a finite sequence of
`report_jitter` calls (interleaved with resets, starting from the default
record), the snapshot returned by `info()` satisfies
`jitter_min ≤ jitter_last ≤ jitter_max` and `jitter_avg ≤ jitter_max`. -/
theorem jitter_info_ordered {ts : ThreadStats} (h : TSReach ts) :
    ∀ i, ts.info = some i →
      i.jitter_min ≤ i.jitter_last ∧ i.jitter_last ≤ i.jitter_max ∧
      i.jitter_avg ≤ i.jitter_max := by
  intro i hi
  unfold ThreadStats.info at hi
  rcases hjit : ts.jitter with _ | js
  · simp [hjit] at hi
  · rw [hjit, Option.map_some'] at hi
    simp only [Option.some.injEq] at hi
    obtain ⟨h1, hmin, hlast, htot⟩ := tsreach_inv h js hjit
    subst hi
    refine ⟨hmin, hlast, ?_⟩
    simp only
    have hdiv : js.total / ts.iters ≤ js.max := by
      calc js.total / ts.iters ≤ ts.iters * js.max / ts.iters :=
            Nat.div_le_div_right htot
        _ = js.max := by
            rw [Nat.mul_div_cancel_left _ (by omega : 0 < ts.iters)]
    unfold as_u16_max
    split <;> omega

/-- Witness for C6: the record after samples 7 then 3 from the default
state is reachable, its snapshot is `⟨2, 3, 7, 3, 5⟩`, and that snapshot
is ordered. -/
theorem jitter_info_ordered_witness :
    (ThreadInfo.mk 2 3 7 3 5).jitter_min ≤ (ThreadInfo.mk 2 3 7 3 5).jitter_last ∧
    (ThreadInfo.mk 2 3 7 3 5).jitter_last ≤ (ThreadInfo.mk 2 3 7 3 5).jitter_max ∧
    (ThreadInfo.mk 2 3 7 3 5).jitter_avg ≤ (ThreadInfo.mk 2 3 7 3 5).jitter_max :=
  jitter_info_ordered
    (TSReach.report 3 (by decide) (TSReach.report 7 (by decide) TSReach.init))
    (ThreadInfo.mk 2 3 7 3 5) (by decide)

/-- C8: when incrementing the u32 iteration counter would overflow, or when
adding the new sample to `total` would overflow u32, `report_jitter`
self-resets to a single-sample state: `iters` becomes 1 and the running
total becomes the new sample alone. -/
theorem report_jitter_overflow_reset (ts : ThreadStats) (jit : Nat) :
    (ts.iters = u32MAX →
      (ts.report_jitter jit).iters = 1 ∧
      (ts.report_jitter jit).jitter.map JitterStats.total = some jit) ∧
    (∀ js, ts.jitter = some js → ts.iters ≠ u32MAX → js.total > u32MAX - jit →
      (ts.report_jitter jit).iters = 1 ∧
      (ts.report_jitter jit).jitter.map JitterStats.total = some jit) := by
  constructor
  · intro hmax
    rcases hjit : ts.jitter with _ | js
    · rw [report_jitter_eq_none ts jit hjit]
      simp [hmax, JitterStats.new]
    · rw [report_jitter_eq_iters_overflow ts jit js hjit hmax]
      simp
  · intro js hjs hne hovf
    rw [report_jitter_eq_total_overflow ts jit js hjs hne hovf]
    simp

/-- Witness for C8: both overflow conditions at concrete records. -/
theorem report_jitter_overflow_reset_witness :
    (({ iters := u32MAX, jitter := some (JitterStats.new 5) } :
        ThreadStats).report_jitter 9).iters = 1 ∧
    (({ iters := u32MAX, jitter := some (JitterStats.new 5) } :
        ThreadStats).report_jitter 9).jitter.map JitterStats.total = some 9 ∧
    (({ iters := 2, jitter := some { min := 1, max := 2, last := 2, total := u32MAX } } :
        ThreadStats).report_jitter 9).iters = 1 ∧
    (({ iters := 2, jitter := some { min := 1, max := 2, last := 2, total := u32MAX } } :
        ThreadStats).report_jitter 9).jitter.map JitterStats.total = some 9 := by
  have h1 := (report_jitter_overflow_reset
    { iters := u32MAX, jitter := some (JitterStats.new 5) } 9).1 rfl
  have h2 := (report_jitter_overflow_reset
    { iters := 2, jitter := some { min := 1, max := 2, last := 2, total := u32MAX } } 9).2
    { min := 1, max := 2, last := 2, total := u32MAX } rfl (by decide) (by decide)
  exact ⟨h1.1, h1.2, h2.1, h2.2⟩

/-- C10: on every record reachable by `report_jitter`/`reset` sequences,
the jitter record is present only when the iteration counter is at least
1, so the `total / iters` division in `info()` never divides by zero. -/
theorem info_division_safe {ts : ThreadStats} (h : TSReach ts) :
    ts.jitter.isSome → 1 ≤ ts.iters := by
  intro hsome
  rcases hjit : ts.jitter with _ | js
  · rw [hjit] at hsome; simp at hsome
  · exact (tsreach_inv h js hjit).1

/-- Witness for C10: a one-sample record is reachable, has a jitter
record, and has `iters ≥ 1`. -/
theorem info_division_safe_witness :
    1 ≤ (ThreadStats.default.report_jitter 4).iters :=
  info_division_safe (TSReach.report 4 (by decide) TSReach.init)
    (by decide)

/-! ## Loop driver (src/interval.rs, `struct Loop` / `Loop::tick`)

Monotonic-clock instants are embedded as `Nat` (microseconds). `tick`
reads the clock up to three times (`t` for the deadline comparison, a
fresh `now()` when realigning after an overrun, and a final `now()` for
jitter reporting); the embedding takes these samples as parameters
`t1`, `t2`, `t3`. -/

/-- `enum Kind` from src/tasks.rs. -/
inductive Kind where
  | Input
  | Output
  | Program
  | Service
  deriving DecidableEq, Repr

/-- `struct Loop` from src/interval.rs. `int_micros` is kept as the
signed value of `interval` (the i64 microsecond count used for the
jitter computation). -/
structure Loop where
  next_iter : Nat
  interval : Nat
  int_micros : Int
  t : Nat
  report : Bool
  task_kind : Option Kind
  marked : Bool
  deriving DecidableEq, Repr

/-- The observable outcome of one `Loop::tick()` call: the returned
Bool, how long the call slept, the jitter sample sent to the stats
collector (when reporting is enabled), and the updated loop state. -/
structure TickResult where
  result : Bool
  slept : Nat
  reported : Option Nat
  state : Loop
  deriving DecidableEq, Repr

/-- `Loop::tick(&mut self)` from src/interval.rs: compare `now()` (`t1`)
with `next_iter`; on Less sleep until the deadline and succeed, on Equal
succeed, on Greater fail; on success advance `next_iter` by `interval`,
on failure realign `next_iter` to a fresh `now()` (`t2`) plus `interval`.
When reporting, send `|int_micros − (t3 − t)|` saturated to u16 and set
`t := t3`. (The initial mark-ready call is modelled as a step of the
lifecycle relation below.) -/
def Loop.tick (lp : Loop) (t1 t2 t3 : Nat) : TickResult :=
  let marked' := true
  let (result, slept) :=
    match compare t1 lp.next_iter with
    | .gt => (false, 0)
    | .eq => (true, 0)
    | .lt => (true, lp.next_iter - t1)
  let next' :=
    if result then lp.next_iter + lp.interval
    else t2 + lp.interval
  let (reported, tNew) :=
    if lp.report then
      (some (as_u16_max (lp.int_micros - ((t3 - lp.t : Nat) : Int)).natAbs), t3)
    else (none, lp.t)
  { result := result, slept := slept, reported := reported,
    state := { lp with next_iter := next', t := tNew, marked := marked' } }

/-- C1: if the current time `t1` is at or before the stored deadline,
`tick` returns true and advances the deadline by exactly the period
(sleeping for `next_iter − t1` first, which is positive exactly when
`t1 < next_iter`); if `t1` is past the deadline, `tick` returns false and
resets the deadline to the fresh current time plus the period, never
accumulating catch-up ticks. -/
theorem loop_tick_spec (lp : Loop) (t1 t2 t3 : Nat) :
    (t1 ≤ lp.next_iter →
      (lp.tick t1 t2 t3).result = true ∧
      (lp.tick t1 t2 t3).state.next_iter = lp.next_iter + lp.interval ∧
      (lp.tick t1 t2 t3).slept = lp.next_iter - t1) ∧
    (lp.next_iter < t1 →
      (lp.tick t1 t2 t3).result = false ∧
      (lp.tick t1 t2 t3).state.next_iter = t2 + lp.interval ∧
      (lp.tick t1 t2 t3).slept = 0) := by
  constructor
  · intro hle
    rcases Nat.lt_or_ge t1 lp.next_iter with hlt | hge
    · have hc : compare t1 lp.next_iter = .lt := by
        rw [Nat.compare_eq_lt]; exact hlt
      simp [Loop.tick, hc]
    · have heq : t1 = lp.next_iter := le_antisymm hle hge
      have hc : compare t1 lp.next_iter = .eq := by
        rw [Nat.compare_eq_eq]; exact heq
      simp [Loop.tick, hc]
      omega
  · intro hgt
    have hc : compare t1 lp.next_iter = .gt := by
      rw [Nat.compare_eq_gt]; exact hgt
    simp [Loop.tick, hc]

/-- Witness for C1: a loop with deadline 50 and period 30, ticked at
t = 20 (early: sleeps 30, succeeds, deadline 80) and at t = 90 with a
fresh clock of 95 (overrun: fails, deadline realigned to 125). -/
theorem loop_tick_spec_witness :
    (({ next_iter := 50, interval := 30, int_micros := 30, t := 0,
        report := false, task_kind := none, marked := true } : Loop).tick
        20 20 20).result = true ∧
    (({ next_iter := 50, interval := 30, int_micros := 30, t := 0,
        report := false, task_kind := none, marked := true } : Loop).tick
        20 20 20).state.next_iter = 80 ∧
    (({ next_iter := 50, interval := 30, int_micros := 30, t := 0,
        report := false, task_kind := none, marked := true } : Loop).tick
        90 95 95).result = false ∧
    (({ next_iter := 50, interval := 30, int_micros := 30, t := 0,
        report := false, task_kind := none, marked := true } : Loop).tick
        90 95 95).state.next_iter = 125 := by
  have h1 := (loop_tick_spec
    { next_iter := 50, interval := 30, int_micros := 30, t := 0,
      report := false, task_kind := none, marked := true } 20 20 20).1
    (by decide)
  have h2 := (loop_tick_spec
    { next_iter := 50, interval := 30, int_micros := 30, t := 0,
      report := false, task_kind := none, marked := true } 90 95 95).2
    (by decide)
  exact ⟨h1.1, h1.2.1, h2.1, h2.2.1⟩

/-! ## Control API (src/api.rs) -/

/-- `struct PlcInfo` from src/lib.rs (the `info` method payload). The
f64 uptime is embedded as whole microseconds. -/
structure PlcInfo where
  system_name : String
  name : String
  description : String
  version : String
  status : Int
  pid : Nat
  uptime_us : Nat
  deriving DecidableEq, Repr

/-- Modelled from the spec: the error kinds of the external `eva_common`
crate that src/api.rs produces (§7: framing, protocol, busy, transient
I/O), each carrying an i16 code on the wire. The numeric codes live in
the external crate; they are fixed distinct values here. -/
inductive ErrKind where
  | unsupported
  | invalidData
  | invalidParams
  | notImplemented
  | busy
  | io
  deriving DecidableEq, Repr

/-- Modelled from the spec: the i16 wire code of each error kind
(distinct values standing in for the external crate's constants). -/
def ErrKind.code : ErrKind → Int
  | .unsupported => -32002
  | .invalidData => -32009
  | .invalidParams => -32602
  | .notImplemented => -32001
  | .busy => -32003
  | .io => -32007

/-- Modelled from the spec: the structured error of the external
`eva_common` crate — a kind plus an optional message. -/
structure ApiError where
  kind : ErrKind
  message : Option String
  deriving DecidableEq, Repr

/-- Modelled from the spec: the self-describing structured payload
(`eva_common::value::Value`, external); only the shapes produced by
src/api.rs are represented. -/
inductive Value where
  | unit
  | infoPayload (info : PlcInfo)
  | statsPayload (stats : List (String × Option ThreadInfo))
  deriving DecidableEq, Repr

/-- `JSON_RPC` from src/api.rs. -/
def JSON_RPC : String := "2.0"

/-- `struct Request` from src/api.rs. -/
structure Request where
  jsonrpc : String
  method : String
  params : Option Value
  deriving DecidableEq, Repr

/-- `Request::check(&self)` from src/api.rs: reject any version tag other
than "2.0". -/
def Request.check (req : Request) : Except ApiError Unit :=
  if req.jsonrpc = JSON_RPC then .ok ()
  else .error { kind := .unsupported, message := some "unsupported json rpc version" }

/-- `struct ResponseError` from src/api.rs. -/
structure ResponseError where
  code : Int
  message : Option String
  deriving DecidableEq, Repr

/-- `struct Response` from src/api.rs. -/
structure Response where
  jsonrpc : String
  result : Option Value
  error : Option ResponseError
  deriving DecidableEq, Repr

/-- `Response::err(e)` from src/api.rs. -/
def Response.err (e : ApiError) : Response :=
  { jsonrpc := JSON_RPC, result := none,
    error := some { code := e.kind.code, message := e.message } }

/-- `Response::result(val)` from src/api.rs. -/
def Response.resultVal (v : Value) : Response :=
  { jsonrpc := JSON_RPC, result := some v, error := none }

/-- `impl From<EResult<Value>> for Response` from src/api.rs. -/
def Response.ofEResult : Except ApiError Value → Response
  | .ok v => Response.resultVal v
  | .error e => Response.err e

/-- `fn handle_api_call(method, params)` from src/api.rs. The process
info and the thread-stats table (read and, for `thread_stats.reset`,
mutated through the global registry in the source) are passed
explicitly. -/
def handle_api_call (info : PlcInfo) (stats : List (String × ThreadStats))
    (method : String) (params : Option Value) :
    Except ApiError Value × List (String × ThreadStats) :=
  if method = "test" then
    if params.isNone then (.ok .unit, stats)
    else (.error { kind := .invalidParams, message := some "invalid method parameters" }, stats)
  else if method = "info" then
    if params.isNone then (.ok (.infoPayload info), stats)
    else (.error { kind := .invalidParams, message := some "invalid method parameters" }, stats)
  else if method = "thread_stats.get" then
    if params.isNone then
      (.ok (.statsPayload (stats.map fun p => (p.1, p.2.info))), stats)
    else (.error { kind := .invalidParams, message := some "invalid method parameters" }, stats)
  else if method = "thread_stats.reset" then
    if params.isNone then (.ok .unit, stats.map fun p => (p.1, p.2.reset))
    else (.error { kind := .invalidParams, message := some "invalid method parameters" }, stats)
  else (.error { kind := .notImplemented, message := some method }, stats)

/-- One request/response exchange of `fn handle_api_stream` from
src/api.rs, after frame decoding: `req.check()?` propagates a version
error to the caller (which logs it and drops the stream, closing the
connection), while a `handle_api_call` error becomes a structured error
response written back and the exchange loop continues. An `.error`
outcome therefore means "connection closed", an `.ok` outcome carries
the response that is sent back. -/
def handle_request (info : PlcInfo) (stats : List (String × ThreadStats))
    (req : Request) :
    Except ApiError (Response × List (String × ThreadStats)) :=
  match req.check with
  | .error e => .error e
  | .ok _ =>
      let r := handle_api_call info stats req.method req.params
      .ok (Response.ofEResult r.1, r.2)

/-- A zero process-info record, used for concrete API evaluations. -/
def plcInfo0 : PlcInfo :=
  { system_name := "host", name := "plc1", description := "", version := "0",
    status := 100, pid := 1, uptime_us := 0 }

/-- Counterexample to C7 as stated: for a request with an unsupported
protocol version ("1.0"), `handle_api_stream` does not send a structured
error response — `req.check()?` propagates the error and the connection
is closed without a response. -/
theorem api_version_error_closes_connection :
    ¬ (∃ resp stats2,
        handle_request plcInfo0 []
          { jsonrpc := "1.0", method := "test", params := none } =
          .ok (resp, stats2) ∧ resp.error.isSome) := by
  rintro ⟨resp, stats2, h, -⟩
  simp [handle_request, Request.check, JSON_RPC] at h

/-- C7 amended: for every request, an unknown method or a wrong parameter
arity (non-null params for test, info, thread_stats.get or
thread_stats.reset) produces a structured error response sent back to
the client without closing the connection; an unsupported protocol
version instead closes the connection with an error and no response. -/
theorem api_protocol_errors_spec (info : PlcInfo)
    (stats : List (String × ThreadStats)) (req : Request) :
    (req.jsonrpc = "2.0" →
      (req.method ∉ ["test", "info", "thread_stats.get", "thread_stats.reset"] →
        ∃ resp stats2, handle_request info stats req = .ok (resp, stats2) ∧
          resp.error.isSome) ∧
      (req.method ∈ ["test", "info", "thread_stats.get", "thread_stats.reset"] →
        req.params.isSome →
        ∃ resp stats2, handle_request info stats req = .ok (resp, stats2) ∧
          resp.error.isSome)) ∧
    (req.jsonrpc ≠ "2.0" →
      ∃ e, handle_request info stats req = .error e) := by
  constructor
  · intro hver
    have hcheck : req.check = .ok () := by
      simp [Request.check, JSON_RPC, hver]
    constructor
    · intro hm
      simp only [List.mem_cons, List.not_mem_nil, or_false, not_or] at hm
      obtain ⟨h1, h2, h3, h4⟩ := hm
      refine ⟨Response.err { kind := .notImplemented, message := some req.method },
        stats, ?_, rfl⟩
      simp [handle_request, hcheck, handle_api_call, h1, h2, h3, h4,
        Response.ofEResult]
    · intro hm hp
      have hps : req.params.isNone = false := by
        rcases hq : req.params with _ | v
        · rw [hq] at hp; simp at hp
        · simp
      have herr : ∀ e : ApiError, (Response.err e).error.isSome = true :=
        fun _ => rfl
      simp only [List.mem_cons, List.not_mem_nil, or_false] at hm
      rcases hm with h | h | h | h <;>
        refine ⟨Response.err { kind := ErrKind.invalidParams, message := some "invalid method parameters" }, stats, ?_, herr _⟩ <;>
          simp [handle_request, hcheck, handle_api_call, h, hps,
            Response.ofEResult]
  · intro hver
    refine ⟨{ kind := .unsupported, message := some "unsupported json rpc version" }, ?_⟩
    simp [handle_request, Request.check, JSON_RPC, hver]

/-- Witness for C7 (amended): an unknown method "foo" gets a structured
error response, a `test` call with params gets a structured error
response, and a version-"1.0" request closes the connection. -/
theorem api_protocol_errors_spec_witness :
    (∃ resp stats2,
      handle_request plcInfo0 [] { jsonrpc := "2.0", method := "foo", params := none } =
        .ok (resp, stats2) ∧ resp.error.isSome) ∧
    (∃ resp stats2,
      handle_request plcInfo0 [] { jsonrpc := "2.0", method := "test", params := some .unit } =
        .ok (resp, stats2) ∧ resp.error.isSome) ∧
    (∃ e, handle_request plcInfo0 [] { jsonrpc := "1.0", method := "test", params := none } =
        .error e) := by
  refine ⟨?_, ?_, ?_⟩
  · exact ((api_protocol_errors_spec plcInfo0 []
      { jsonrpc := "2.0", method := "foo", params := none }).1 rfl).1 (by decide)
  · exact ((api_protocol_errors_spec plcInfo0 []
      { jsonrpc := "2.0", method := "test", params := some .unit }).1 rfl).2
      (by decide) (by decide)
  · exact (api_protocol_errors_spec plcInfo0 []
      { jsonrpc := "1.0", method := "test", params := none }).2 (by decide)

/-! ## Lifecycle state machine (src/tasks.rs + the `run()` sequence of
src/lib.rs)

The global runtime state: the atomic `STATUS`, the `WAIT_HANDLES` join
set (present or taken), the `SHUTDOWN_FN` cell, and the registry maps of
`ControllerStats`.  BTreeMaps keyed by thread name are embedded as
association lists with an insert-or-replace operation. -/

/-- `BTreeMap::insert`: replace the value under an existing key or
append a new binding. -/
def alInsert : List (String × Bool) → String → Bool → List (String × Bool)
  | [], k, v => [(k, v)]
  | (k', v') :: rest, k, v =>
      if k' = k then (k, v) :: rest else (k', v') :: alInsert rest k v

/-- "every value in the map is true" (the `for v in values { if !v
{ return } }` scans of src/tasks.rs). -/
def allTrue (m : List (String × Bool)) : Bool :=
  m.all (·.2)

/-- The main thread's position inside `run()` from src/lib.rs:
`m0`..`m3` are before the four startup status calls, `m4` is the
signal-polling loop, `m5` is the `if status == Active` branch after the
signal, `m6` is inside `shutdown()` after Stopping was set and the join
set taken (joins and hook in progress), `m7` is before `stop_datasync()`
(the generated `stop_if_no_output_or_sfn` call), `m8` is the poll-until-
Stopped loop, `mDone` is after `run()` returns. -/
inductive MainPhase where
  | m0 | m1 | m2 | m3 | m4 | m5 | m6 | m7 | m8 | mDone
  deriving DecidableEq, Repr

/-- The global lifecycle state: `STATUS`, the main-thread position, the
`WAIT_HANDLES` cell (present until `shutdown()` takes it), the
`SHUTDOWN_FN` cell, and the fields of `ControllerStats` that drive
transitions (thread statistics themselves are modelled separately). Each
output thread's local `last_sync` capture is recorded in
`sawLastSync`. -/
structure SysState where
  status : Status
  phase : MainPhase
  waitHandles : Bool
  sfn : Bool
  inputReady : List (String × Bool)
  programReady : List (String × Bool)
  outputStopped : List (String × Bool)
  inputsReady : Bool
  programsReady : Bool
  outputsStopped : Bool
  registered : List String
  sawLastSync : List String
  deriving DecidableEq, Repr

/-- The state after `tasks::init()`: status Inactive, join set present,
empty registry (`ControllerStats::default()` has all three readiness
flags true). -/
def initState : SysState :=
  { status := .Inactive, phase := .m0, waitHandles := true, sfn := false,
    inputReady := [], programReady := [], outputStopped := [],
    inputsReady := true, programsReady := true, outputsStopped := true,
    registered := [], sawLastSync := [] }

/-- `fn set_status` (the store; mutex/condvar effects are not state). -/
def set_status (s : SysState) (st : Status) : SysState :=
  { s with status := st }

/-- `fn set_starting`: `if status() != Status::Stopping { set_status(Starting) }`. -/
def set_starting (s : SysState) : SysState :=
  if s.status ≠ .Stopping then set_status s .Starting else s

/-- `fn set_syncing`: `if status() != Status::Stopping { set_status(Syncing) }`. -/
def set_syncing (s : SysState) : SysState :=
  if s.status ≠ .Stopping then set_status s .Syncing else s

/-- `fn set_preparing_if_no_inputs`. -/
def set_preparing_if_no_inputs (s : SysState) : SysState :=
  if s.inputReady = [] then set_status s .Preparing else s

/-- `fn set_active_if_no_inputs_and_programs`. -/
def set_active_if_no_inputs_and_programs (s : SysState) : SysState :=
  if s.programReady = [] ∧ s.inputReady = [] then set_status s .Active else s

/-- `fn set_stopped`. -/
def set_stopped (s : SysState) : SysState :=
  set_status s .Stopped

/-- `fn stop_if_no_output_or_sfn` from src/tasks.rs:
`if output_threads_stopped.is_empty() || SHUTDOWN_FN.get().is_none()
{ set_status(Stopped) }`. -/
def stop_if_no_output_or_sfn (s : SysState) : SysState :=
  if s.outputStopped = [] ∨ s.sfn = false then set_status s .Stopped else s

/-- `ControllerStats::register_input_thread` (thread-stats entry plus a
not-ready flag; clears the global `inputs_ready`). -/
def register_input_thread (s : SysState) (name : String) : SysState :=
  { s with registered := name :: s.registered,
           inputReady := alInsert s.inputReady name false,
           inputsReady := false }

/-- `ControllerStats::register_program_thread`. -/
def register_program_thread (s : SysState) (name : String) : SysState :=
  { s with registered := name :: s.registered,
           programReady := alInsert s.programReady name false,
           programsReady := false }

/-- `ControllerStats::register_output_thread`. -/
def register_output_thread (s : SysState) (name : String) : SysState :=
  { s with registered := name :: s.registered,
           outputStopped := alInsert s.outputStopped name false,
           outputsStopped := false }

/-- `ControllerStats::register_service_thread`. -/
def register_service_thread (s : SysState) (name : String) : SysState :=
  { s with registered := name :: s.registered }

/-- `ControllerStats::mark_input_thread_ready`, called by the marking
thread on its first tick: guarded by `!inputs_ready && status() >=
Syncing`; inserts the thread as ready; when every registered input is
ready, sets `inputs_ready`, moves the status to Preparing and — with no
program threads registered — straight on to Active (the two consecutive
`set_status` calls are collapsed into the final value). -/
def mark_input_thread_ready (s : SysState) (name : String) : SysState :=
  if s.inputsReady = false ∧ Status.code .Syncing ≤ s.status.code then
    if allTrue (alInsert s.inputReady name true) then
      if s.programReady = [] then
        { s with inputReady := alInsert s.inputReady name true,
                 inputsReady := true, status := .Active }
      else
        { s with inputReady := alInsert s.inputReady name true,
                 inputsReady := true, status := .Preparing }
    else
      { s with inputReady := alInsert s.inputReady name true }
  else s

/-- `ControllerStats::mark_program_thread_ready`. -/
def mark_program_thread_ready (s : SysState) (name : String) : SysState :=
  if s.programsReady = false ∧ Status.code .Preparing ≤ s.status.code then
    if allTrue (alInsert s.programReady name true) then
      { s with programReady := alInsert s.programReady name true,
               programsReady := true, status := .Active }
    else
      { s with programReady := alInsert s.programReady name true }
  else s

/-- `ControllerStats::mark_output_thread_stopped`. -/
def mark_output_thread_stopped (s : SysState) (name : String) : SysState :=
  if s.outputsStopped = false then
    if allTrue (alInsert s.outputStopped name true) then
      { s with outputStopped := alInsert s.outputStopped name true,
               outputsStopped := true, status := .Stopped }
    else
      { s with outputStopped := alInsert s.outputStopped name true }
  else s

/-! ### The shutdown sequence (src/tasks.rs, `fn shutdown`) as an event
trace, for claim C2. -/

/-- An observable event of `shutdown()`: a status store, the join of one
collected handle, or the invocation of the user shutdown hook. -/
inductive Event where
  | setStatus (st : Status)
  | join (h : Nat)
  | hook
  deriving DecidableEq, Repr

/-- `fn shutdown()` from src/tasks.rs as the sequence of events it
performs, given the `WAIT_HANDLES` contents and whether `SHUTDOWN_FN`
is installed: set Stopping; if the join set is still present *and a
shutdown hook is installed*, join every handle and call the hook
(the joins and the hook call are nested inside
`if let Some(f) = SHUTDOWN_FN.get()`); finally set StopSyncing. -/
def shutdown_events (wait_handles : Option (List Nat)) (sfn : Bool) : List Event :=
  [Event.setStatus .Stopping] ++
  (match wait_handles with
   | some hs => if sfn then hs.map Event.join ++ [Event.hook] else []
   | none => []) ++
  [Event.setStatus .StopSyncing]

/-- Counterexample to C2 as stated: with one collected Input/Program
handle and no shutdown hook installed, `shutdown()` never joins the
handle — the join loop is nested inside the `SHUTDOWN_FN` check — so the
claimed "every join handle is joined ... for every combination ...
presence or absence of a shutdown hook" fails. -/
theorem shutdown_skips_joins_without_hook :
    Event.join 0 ∉ shutdown_events (some [0]) false := by
  decide

/-- C2 amended: after Stopping is set, when a shutdown hook is installed
every collected Input/Program handle is joined and then the hook is
invoked and returns, all before StopSyncing is set; when no hook is
installed, no handle is joined and the status proceeds directly from
Stopping to StopSyncing. -/
theorem shutdown_order_spec (hs : List Nat) (sfn : Bool) :
    (sfn = true →
      shutdown_events (some hs) sfn =
        Event.setStatus .Stopping ::
          (hs.map Event.join ++ [Event.hook, Event.setStatus .StopSyncing])) ∧
    (sfn = false →
      shutdown_events (some hs) sfn =
        [Event.setStatus .Stopping, Event.setStatus .StopSyncing]) := by
  constructor
  · intro h
    subst h
    simp [shutdown_events]
  · intro h
    subst h
    simp [shutdown_events]

/-- Witness for C2 (amended): two handles with a hook, and one handle
without a hook. -/
theorem shutdown_order_spec_witness :
    shutdown_events (some [3, 4]) true =
      Event.setStatus .Stopping ::
        ([3, 4].map Event.join ++ [Event.hook, Event.setStatus .StopSyncing]) ∧
    shutdown_events (some [0]) false =
      [Event.setStatus .Stopping, Event.setStatus .StopSyncing] :=
  ⟨(shutdown_order_spec [3, 4] true).1 rfl,
   (shutdown_order_spec [0] false).2 rfl⟩

/-- A state at StopSyncing with one registered (unstopped) output thread
and no shutdown hook. -/
def stopSyncState : SysState :=
  { status := .StopSyncing, phase := .m7, waitHandles := false, sfn := false,
    inputReady := [], programReady := [], outputStopped := [("Oout1", false)],
    inputsReady := true, programsReady := true, outputsStopped := false,
    registered := ["Oout1"], sawLastSync := [] }

/-- Counterexample to C3 as stated: with an output thread registered but
no shutdown hook installed, `stop_if_no_output_or_sfn` jumps to Stopped
immediately (its condition is a disjunction, `is_empty() ||
SHUTDOWN_FN.get().is_none()`), contradicting "exactly when no Output
threads are registered AND no shutdown hook is installed". -/
theorem stop_jump_despite_outputs :
    ¬ (((stop_if_no_output_or_sfn stopSyncState).status = Status.Stopped) ↔
        (stopSyncState.outputStopped = [] ∧ stopSyncState.sfn = false)) := by
  decide

/-- C3 amended: at StopSyncing the status jumps immediately to Stopped
exactly when no Output threads are registered OR no shutdown hook is
installed; otherwise (outputs registered and a hook installed) the jump
does not happen, and an output thread's mark-stopped call sets Stopped
exactly when, after marking it, every registered output is marked
stopped. -/
theorem stop_syncing_to_stopped_spec (s : SysState) (name : String)
    (h : s.status = .StopSyncing) :
    ((stop_if_no_output_or_sfn s).status = .Stopped ↔
      (s.outputStopped = [] ∨ s.sfn = false)) ∧
    (s.outputsStopped = false →
      ((mark_output_thread_stopped s name).status = .Stopped ↔
        allTrue (alInsert s.outputStopped name true) = true)) := by
  constructor
  · unfold stop_if_no_output_or_sfn
    split_ifs with hc
    · exact ⟨fun _ => hc, fun _ => rfl⟩
    · push_neg at hc
      constructor
      · intro hL
        have hL' : s.status = Status.Stopped := hL
        rw [h] at hL'
        exact Status.noConfusion hL'
      · intro hR
        rcases hR with h1 | h2
        · exact absurd h1 hc.1
        · exact absurd h2 hc.2
  · intro hns
    unfold mark_output_thread_stopped
    rw [if_pos hns]
    split_ifs with hall
    · exact ⟨fun _ => hall, fun _ => rfl⟩
    · constructor
      · intro hL
        have hL' : s.status = Status.Stopped := hL
        rw [h] at hL'
        exact Status.noConfusion hL'
      · intro hR
        exact absurd hR hall

/-- Witness for C3 (amended): at `stopSyncState` (one output, no hook)
the jump happens; and marking the single output stopped sets Stopped. -/
theorem stop_syncing_to_stopped_spec_witness :
    ((stop_if_no_output_or_sfn stopSyncState).status = .Stopped ↔
      (stopSyncState.outputStopped = [] ∨ stopSyncState.sfn = false)) ∧
    ((mark_output_thread_stopped stopSyncState "Oout1").status = .Stopped ↔
      allTrue (alInsert stopSyncState.outputStopped "Oout1" true) = true) :=
  ⟨(stop_syncing_to_stopped_spec stopSyncState "Oout1" rfl).1,
   (stop_syncing_to_stopped_spec stopSyncState "Oout1" rfl).2 rfl⟩

/-! ### The lifecycle step relation (claim C4)

Steps are the status-relevant operations of src/tasks.rs with their own
guards, freely interleaved, plus the main thread's `run()` sequence from
src/lib.rs (which is straight-line code, tracked by `MainPhase`).
Registration carries `spawn`'s status guard; an output thread's
mark-stopped only happens after its loop observed `status ==
StopSyncing` (`output_last_sync`), recorded by `observeLastSync`. -/

inductive Step : SysState → SysState → Prop where
  | regInput (s : SysState) (name : String) (hw : s.waitHandles = true)
      (hst : s.status = .Inactive ∨ s.status = .Starting)
      (hn : name ∉ s.registered) :
      Step s (register_input_thread s name)
  | regProgram (s : SysState) (name : String) (hw : s.waitHandles = true)
      (hst : s.status = .Inactive ∨ s.status = .Starting)
      (hn : name ∉ s.registered) :
      Step s (register_program_thread s name)
  | regOutput (s : SysState) (name : String) (hw : s.waitHandles = true)
      (hst : s.status = .Inactive ∨ s.status = .Starting)
      (hn : name ∉ s.registered) :
      Step s (register_output_thread s name)
  | regService (s : SysState) (name : String) (hw : s.waitHandles = true)
      (hn : name ∉ s.registered) :
      Step s (register_service_thread s name)
  | markInput (s : SysState) (name : String) :
      Step s (mark_input_thread_ready s name)
  | markProgram (s : SysState) (name : String) :
      Step s (mark_program_thread_ready s name)
  | observeLastSync (s : SysState) (name : String)
      (h : s.status = .StopSyncing) :
      Step s { s with sawLastSync := name :: s.sawLastSync }
  | markOutput (s : SysState) (name : String) (h : name ∈ s.sawLastSync) :
      Step s (mark_output_thread_stopped s name)
  | installHook (s : SysState) (h : s.sfn = false) :
      Step s { s with sfn := true }
  | main0 (s : SysState) (h : s.phase = .m0) :
      Step s { set_starting s with phase := .m1 }
  | main1 (s : SysState) (h : s.phase = .m1) :
      Step s { set_syncing s with phase := .m2 }
  | main2 (s : SysState) (h : s.phase = .m2) :
      Step s { set_preparing_if_no_inputs s with phase := .m3 }
  | main3 (s : SysState) (h : s.phase = .m3) :
      Step s { set_active_if_no_inputs_and_programs s with phase := .m4 }
  | main4 (s : SysState) (h : s.phase = .m4) :
      Step s { s with phase := .m5 }
  | main5_active (s : SysState) (h : s.phase = .m5) (ha : s.status = .Active) :
      Step s { s with status := .Stopping, waitHandles := false, phase := .m6 }
  | main5_other (s : SysState) (h : s.phase = .m5) (ha : s.status ≠ .Active) :
      Step s { set_stopped s with phase := .mDone }
  | main6 (s : SysState) (h : s.phase = .m6) :
      Step s { s with status := .StopSyncing, phase := .m7 }
  | main7 (s : SysState) (h : s.phase = .m7) :
      Step s { (if s.status ≠ .Stopped then stop_if_no_output_or_sfn s else s) with
               phase := .m8 }
  | main8 (s : SysState) (h : s.phase = .m8) (hs : s.status = .Stopped) :
      Step s { s with phase := .mDone }

/-- The states reachable from `initState`. -/
inductive Reachable : SysState → Prop where
  | init : Reachable initState
  | step {s s' : SysState} : Reachable s → Step s s' → Reachable s'

/-- The inductive invariant: a negative status only occurs with the main
thread inside its shutdown phases; an output thread observed the final
sync only at StopSyncing or later; at `m6` the status is Stopping; the
Unknown sentinel never occurs. -/
def Inv (s : SysState) : Prop :=
  (s.status.code < 0 →
    (s.phase = .m6 ∨ s.phase = .m7 ∨ s.phase = .m8 ∨ s.phase = .mDone)) ∧
  (s.sawLastSync ≠ [] → s.status.code ≤ -2) ∧
  (s.phase = .m6 → s.status = .Stopping) ∧
  s.status ≠ .Unknown

theorem code_ge_stopped (st : Status) (h1 : st ≠ .Unknown)
    (h2 : st.code < 0) : Status.code .Stopped ≤ st.code := by
  cases st <;> revert h1 h2 <;> decide

theorem inv_step {s s' : SysState} (hinv : Inv s) (hstep : Step s s') :
    Inv s' ∧ (s.status.code < 0 → s'.status.code ≤ s.status.code) := by
  obtain ⟨hA, hB, hC, hD⟩ := hinv
  cases hstep with
  | regInput name hw hst hn =>
      exact ⟨⟨hA, hB, hC, hD⟩, fun _ => le_rfl⟩
  | regProgram name hw hst hn =>
      exact ⟨⟨hA, hB, hC, hD⟩, fun _ => le_rfl⟩
  | regOutput name hw hst hn =>
      exact ⟨⟨hA, hB, hC, hD⟩, fun _ => le_rfl⟩
  | regService name hw hn =>
      exact ⟨⟨hA, hB, hC, hD⟩, fun _ => le_rfl⟩
  | markInput name =>
      unfold Inv mark_input_thread_ready
      split_ifs with hg hall hprog
      · have h2 : (2 : Int) ≤ s.status.code := hg.2
        dsimp only
        refine ⟨⟨?_, ?_, ?_, ?_⟩, ?_⟩
        · intro hneg
          exact absurd hneg (by decide)
        · intro hne
          exact absurd (hB hne) (by omega)
        · intro hph
          have hstp := hC hph
          rw [hstp] at h2
          exact absurd h2 (by decide)
        · decide
        · intro hneg
          exact absurd hneg (by omega)
      · have h2 : (2 : Int) ≤ s.status.code := hg.2
        dsimp only
        refine ⟨⟨?_, ?_, ?_, ?_⟩, ?_⟩
        · intro hneg
          exact absurd hneg (by decide)
        · intro hne
          exact absurd (hB hne) (by omega)
        · intro hph
          have hstp := hC hph
          rw [hstp] at h2
          exact absurd h2 (by decide)
        · decide
        · intro hneg
          exact absurd hneg (by omega)
      · exact ⟨⟨hA, hB, hC, hD⟩, fun _ => le_rfl⟩
      · exact ⟨⟨hA, hB, hC, hD⟩, fun _ => le_rfl⟩
  | markProgram name =>
      unfold Inv mark_program_thread_ready
      split_ifs with hg hall
      · have h2 : (3 : Int) ≤ s.status.code := hg.2
        dsimp only
        refine ⟨⟨?_, ?_, ?_, ?_⟩, ?_⟩
        · intro hneg
          exact absurd hneg (by decide)
        · intro hne
          exact absurd (hB hne) (by omega)
        · intro hph
          have hstp := hC hph
          rw [hstp] at h2
          exact absurd h2 (by decide)
        · decide
        · intro hneg
          exact absurd hneg (by omega)
      · exact ⟨⟨hA, hB, hC, hD⟩, fun _ => le_rfl⟩
      · exact ⟨⟨hA, hB, hC, hD⟩, fun _ => le_rfl⟩
  | observeLastSync name h =>
      unfold Inv
      dsimp only
      refine ⟨⟨hA, ?_, hC, hD⟩, fun _ => le_rfl⟩
      intro _
      rw [h]
      decide
  | markOutput name h =>
      have hne : s.sawLastSync ≠ [] := by
        intro he
        rw [he] at h
        exact List.not_mem_nil name h
      have hle := hB hne
      unfold Inv mark_output_thread_stopped
      split_ifs with hns hall
      · dsimp only
        refine ⟨⟨fun _ => hA (by omega), fun _ => by decide, ?_, by decide⟩,
          fun _ => code_ge_stopped s.status hD (by omega)⟩
        intro hph
        have hstp := hC hph
        rw [hstp] at hle
        exact absurd hle (by decide)
      · exact ⟨⟨hA, hB, hC, hD⟩, fun _ => le_rfl⟩
      · exact ⟨⟨hA, hB, hC, hD⟩, fun _ => le_rfl⟩
  | installHook h =>
      exact ⟨⟨hA, hB, hC, hD⟩, fun _ => le_rfl⟩
  | main0 h =>
      have hpos : ¬ (s.status.code < 0) := by
        intro hneg
        have hx := hA hneg
        rw [h] at hx
        simp at hx
      unfold Inv set_starting set_status
      split_ifs with hcond
      · dsimp only
        refine ⟨⟨?_, ?_, ?_, ?_⟩, ?_⟩
        · intro hneg
          exact absurd hneg (by decide)
        · intro hne
          exact absurd (hB hne) (by omega)
        · intro hph
          exact absurd hph (by decide)
        · decide
        · intro hneg
          exact absurd hneg hpos
      · push_neg at hcond
        exact absurd (by rw [hcond]; decide : s.status.code < 0) hpos
  | main1 h =>
      have hpos : ¬ (s.status.code < 0) := by
        intro hneg
        have hx := hA hneg
        rw [h] at hx
        simp at hx
      unfold Inv set_syncing set_status
      split_ifs with hcond
      · dsimp only
        refine ⟨⟨?_, ?_, ?_, ?_⟩, ?_⟩
        · intro hneg
          exact absurd hneg (by decide)
        · intro hne
          exact absurd (hB hne) (by omega)
        · intro hph
          exact absurd hph (by decide)
        · decide
        · intro hneg
          exact absurd hneg hpos
      · push_neg at hcond
        exact absurd (by rw [hcond]; decide : s.status.code < 0) hpos
  | main2 h =>
      have hpos : ¬ (s.status.code < 0) := by
        intro hneg
        have hx := hA hneg
        rw [h] at hx
        simp at hx
      unfold Inv set_preparing_if_no_inputs set_status
      split_ifs with hcond
      · dsimp only
        refine ⟨⟨?_, ?_, ?_, ?_⟩, ?_⟩
        · intro hneg
          exact absurd hneg (by decide)
        · intro hne
          exact absurd (hB hne) (by omega)
        · intro hph
          exact absurd hph (by decide)
        · decide
        · intro hneg
          exact absurd hneg hpos
      · dsimp only
        refine ⟨⟨fun hneg => absurd hneg hpos, hB, ?_, hD⟩, fun _ => le_rfl⟩
        intro hph
        exact absurd hph (by decide)
  | main3 h =>
      have hpos : ¬ (s.status.code < 0) := by
        intro hneg
        have hx := hA hneg
        rw [h] at hx
        simp at hx
      unfold Inv set_active_if_no_inputs_and_programs set_status
      split_ifs with hcond
      · dsimp only
        refine ⟨⟨?_, ?_, ?_, ?_⟩, ?_⟩
        · intro hneg
          exact absurd hneg (by decide)
        · intro hne
          exact absurd (hB hne) (by omega)
        · intro hph
          exact absurd hph (by decide)
        · decide
        · intro hneg
          exact absurd hneg hpos
      · dsimp only
        refine ⟨⟨fun hneg => absurd hneg hpos, hB, ?_, hD⟩, fun _ => le_rfl⟩
        intro hph
        exact absurd hph (by decide)
  | main4 h =>
      have hpos : ¬ (s.status.code < 0) := by
        intro hneg
        have hx := hA hneg
        rw [h] at hx
        simp at hx
      unfold Inv
      dsimp only
      refine ⟨⟨fun hneg => absurd hneg hpos, hB, ?_, hD⟩, fun _ => le_rfl⟩
      intro hph
      exact absurd hph (by decide)
  | main5_active h ha =>
      unfold Inv
      dsimp only
      refine ⟨⟨fun _ => Or.inl rfl, ?_, fun _ => rfl, by decide⟩, ?_⟩
      · intro hne2
        have hle := hB hne2
        rw [ha] at hle
        exact absurd hle (by decide)
      · intro hneg
        rw [ha] at hneg
        exact absurd hneg (by decide)
  | main5_other h ha =>
      unfold Inv set_stopped set_status
      dsimp only
      refine ⟨⟨fun _ => Or.inr (Or.inr (Or.inr rfl)), fun _ => by decide,
        fun hph => absurd hph (by decide), by decide⟩, ?_⟩
      intro hneg
      exact code_ge_stopped s.status hD hneg
  | main6 h =>
      have hstp := hC h
      unfold Inv
      dsimp only
      refine ⟨⟨fun _ => Or.inr (Or.inl rfl), fun _ => by decide,
        fun hph => absurd hph (by decide), by decide⟩, ?_⟩
      intro _
      rw [hstp]
      decide
  | main7 h =>
      unfold Inv stop_if_no_output_or_sfn set_status
      split_ifs with hne2 hjump
      · dsimp only
        refine ⟨⟨fun _ => Or.inr (Or.inr (Or.inl rfl)), fun _ => by decide,
          fun hph => absurd hph (by decide), by decide⟩, ?_⟩
        intro hneg
        exact code_ge_stopped s.status hD hneg
      · dsimp only
        exact ⟨⟨fun _ => Or.inr (Or.inr (Or.inl rfl)), hB,
          fun hph => absurd hph (by decide), hD⟩, fun _ => le_rfl⟩
      · dsimp only
        exact ⟨⟨fun _ => Or.inr (Or.inr (Or.inl rfl)), hB,
          fun hph => absurd hph (by decide), hD⟩, fun _ => le_rfl⟩
  | main8 h hs =>
      unfold Inv
      dsimp only
      exact ⟨⟨fun _ => Or.inr (Or.inr (Or.inr rfl)), hB,
        fun hph => absurd hph (by decide), hD⟩, fun _ => le_rfl⟩

theorem reachable_inv {s : SysState} (h : Reachable s) : Inv s := by
  induction h with
  | init => exact ⟨fun hneg => absurd hneg (by decide), fun hne => absurd rfl hne,
      fun hph => absurd hph (by decide), by decide⟩
  | step _ hstep ih => exact (inv_step ih hstep).1

theorem reachable_of_steps {s t : SysState} (hr : Reachable s)
    (hsteps : Relation.ReflTransGen Step s t) : Reachable t := by
  induction hsteps with
  | refl => exact hr
  | tail _ hstep ih => exact Reachable.step ih hstep

/-- C4: on every reachable state of the lifecycle step relation, once the
status holds a negative (shutdown) value, every sequence of further steps
keeps it non-increasing (hence never positive again, and monotonically
non-increasing from the transition into Stopping until Stopped). -/
theorem lifecycle_no_status_resurrection {s t : SysState}
    (hr : Reachable s) (hsteps : Relation.ReflTransGen Step s t)
    (hneg : s.status.code < 0) :
    t.status.code ≤ s.status.code ∧ t.status.code < 0 := by
  induction hsteps with
  | refl => exact ⟨le_rfl, hneg⟩
  | tail hst hstep ih =>
      obtain ⟨h1, h2⟩ := ih
      have hrt := reachable_of_steps hr hst
      have h3 := (inv_step (reachable_inv hrt) hstep).2 h2
      exact ⟨le_trans h3 h1, by omega⟩

/-- The state right after a signal interrupts an (empty-registry) active
controller: `shutdown()` has set Stopping and taken the join set. -/
def witStopping : SysState :=
  { status := .Stopping, phase := .m6, waitHandles := false, sfn := false,
    inputReady := [], programReady := [], outputStopped := [],
    inputsReady := true, programsReady := true, outputsStopped := true,
    registered := [], sawLastSync := [] }

theorem reachable_witStopping : Reachable witStopping :=
  Reachable.step (Reachable.step (Reachable.step (Reachable.step
    (Reachable.step (Reachable.step Reachable.init
      (Step.main0 initState rfl))
      (Step.main1 _ rfl))
      (Step.main2 _ rfl))
      (Step.main3 _ rfl))
      (Step.main4 _ rfl))
      (Step.main5_active _ rfl (by decide))

/-- The successor of `witStopping` under the `main6` step. -/
def witStopSyncing : SysState :=
  { witStopping with status := .StopSyncing, phase := .m7 }

/-- Witness for C4: from the reachable Stopping state, the `main6` step
(to StopSyncing) keeps the status non-increasing and negative. -/
theorem lifecycle_no_status_resurrection_witness :
    witStopSyncing.status.code ≤ witStopping.status.code ∧
    witStopSyncing.status.code < 0 :=
  lifecycle_no_status_resurrection reachable_witStopping
    (Relation.ReflTransGen.single (Step.main6 witStopping rfl))
    (by decide)

end Rplc
